import Mathlib

/-
Verification development for the `gcloudvoice` package (transcribe.go).

The Go source is shallowly embedded: external effects (HTTP fetch, the
`ffmpeg` subprocess, Google Cloud Storage and the Speech API) are modelled
by an oracle that decides the outcome of every fallible external call,
while the orchestration logic of `TranscribeURL`, the deferred-cleanup
stack, the `ffmpeg` pipe wiring of `splitWavChannels`, and the response
parsing of `transcribeChannel` are translated statement by statement.
-/

set_option autoImplicit false
set_option linter.unreachableTactic false
set_option linter.unusedTactic false

namespace Gcloudvoice

/-- `Message` from transcribe.go: a transcribed section of a conversation.
`Offset` embeds Go's `time.Duration` (an int64 count of nanoseconds) as `Int`. -/
structure Message where
  Channel : Bool
  Offset : Int
  Text : String
  deriving Repr, DecidableEq

/-- `ByTime` from transcribe.go: a type conforming to the `sort` package. -/
def ByTime : Type := List Message

/-- `func (s ByTime) Len() int { return len(s) }` -/
def ByTime.Len (s : ByTime) : Nat := List.length s

/-- `func (s ByTime) Less(i, j int) bool { return s[i].Offset < s[j].Offset }`
(indices are in range, as the `sort` package guarantees). -/
def ByTime.Less (s : ByTime) (i j : Fin (ByTime.Len s)) : Bool :=
  decide ((List.get s i).Offset < (List.get s j).Offset)

/-- `func (s ByTime) Swap(i, j int) { s[i], s[j] = s[j], s[i] }` -/
def ByTime.Swap (s : ByTime) (i j : Fin (ByTime.Len s)) : ByTime :=
  List.set (List.set s i (List.get s j)) j (List.get s i)

/-! ### String helpers used for object naming

`path.Base` and `strings.TrimSuffix` from the Go standard library,
as used by `TranscribeURL` to derive the staged object names. -/

/-- Go `path.Base`: last element of the path after removing trailing
slashes; `"."` for the empty path, `"/"` for an all-slash path. -/
def pathBase (p : String) : String :=
  if p = "" then "."
  else
    let cs := List.reverse (List.dropWhile (fun c => c = '/') (List.reverse p.data))
    let base := List.reverse (List.takeWhile (fun c => c ≠ '/') (List.reverse cs))
    if base = [] then "/" else String.mk base

/-- Go `strings.HasSuffix`. -/
def hasSuffix (s suffix : String) : Bool :=
  List.isSuffixOf suffix.data s.data

/-- Go `strings.TrimSuffix`: drops `suffix` from the end of `s` when present. -/
def trimSuffix (s suffix : String) : String :=
  if hasSuffix s suffix then
    String.mk (List.take (s.data.length - suffix.data.length) s.data)
  else s

/-- The base object name computed at the top of `TranscribeURL`:
`if name == "" { name = path.Base(url) }; name = strings.TrimSuffix(name, ".wav")`. -/
def deriveBase (url name : String) : String :=
  let name := if name = "" then pathBase url else name
  trimSuffix name ".wav"

/-- `gsPath` closure inside `TranscribeURL`:
`fmt.Sprintf("gs://%s/%s", c.StorageBucket, name)`. -/
def gsPath (bucket name : String) : String :=
  "gs://" ++ bucket ++ "/" ++ name

/-! ### Orchestration model for `TranscribeURL`

The errors the function can produce: the fatal wraps from the main path
and the sentinel errors (`ErrMakingPublic`, `ErrSaving`, `ErrDeleting`)
appended by the deferred cleanup handlers via `multierror.Append`.
A Go `error` value is embedded as a `List GErr`: `[]` is the `nil` error,
and `multierror.Append` is list append. -/

inductive GErr where
  | httpGet        -- "unable to GET url"
  | splitting      -- "splitting wav"
  | closingLeft    -- "closing left gcloud storage writer"
  | closingRight   -- "closing right gcloud storage writer"
  | transcribing   -- "transcribing" wrap of the errgroup error
  | makingPublic   -- ErrMakingPublic, appended by the ACL defer
  | saving         -- ErrSaving, appended by the original-writer Close defer
  | deletingLeft   -- ErrDeleting for the left intermediate object
  | deletingRight  -- ErrDeleting for the right intermediate object
  deriving Repr, DecidableEq

/-- Observable state of the Google Cloud Storage bucket and of the calls the
orchestrator issued. `objects` holds the names of objects existing in the
bucket (an object appears only once its writer is successfully closed, per
the "Close must be called before another process can read" comment).
`closeCalled` records every writer whose `Close` was invoked,
`deletesIssued` every `Delete` call, `aclAttempts` every `ACL().Set` call,
`recogCalls` every `gs://` URI submitted to `transcribeChannel`. -/
structure GState where
  objects : List String
  closeCalled : List String
  publicObjects : List String
  deletesIssued : List String
  aclAttempts : List String
  recogCalls : List String
  deriving Repr, DecidableEq

def initState : GState :=
  { objects := [], closeCalled := [], publicObjects := [],
    deletesIssued := [], aclAttempts := [], recogCalls := [] }

/-- The `Client` struct of transcribe.go (the two Google API handles are
modelled by the oracle; the configuration fields are kept verbatim). -/
structure Client where
  StorageBucket : String
  StoreOriginal : Bool
  MakeOriginalPublic : Bool
  KeepIntermediateFiles : Bool
  Phrases : List String
  ProfanityFilter : Bool
  deriving Repr, DecidableEq

/-- Outcome oracle for every fallible external call made by `TranscribeURL`:
`true` means the call succeeds. Recognition outcomes are
`Option (List Message)` (`none` is a failed `transcribeChannel`). -/
structure Oracle where
  httpGetOk : Bool
  splitOk : Bool
  leftCloseOk : Bool
  rightCloseOk : Bool
  origCloseOk : Bool
  aclOk : Bool
  leftDeleteOk : Bool
  rightDeleteOk : Bool
  leftRecog : Option (List Message)
  rightRecog : Option (List Message)
  deriving Repr, DecidableEq

/-- A storage writer `Close`: the call is always recorded; on success the
object becomes visible in the bucket. -/
def closeWriter (ok : Bool) (name : String) (st : GState) : GState × Bool :=
  let st := { st with closeCalled := st.closeCalled ++ [name] }
  if ok then ({ st with objects := st.objects ++ [name] }, true) else (st, false)

/-- An `obj.Delete(ctx)` call in the cleanup defer:
`if err := obj.Delete(ctx); err != nil && err != storage.ErrObjectNotExist`
appends an `ErrDeleting` wrap. Deleting an absent object yields
`storage.ErrObjectNotExist`, which is ignored. -/
def deleteObj (ok : Bool) (name : String) (e : GErr) (st : GState)
    (errs : List GErr) : GState × List GErr :=
  let st := { st with deletesIssued := st.deletesIssued ++ [name] }
  if name ∈ st.objects then
    if ok then
      ({ st with objects := List.filter (fun n => n ≠ name) st.objects }, errs)
    else (st, errs ++ [e])
  else (st, errs)

/-- The deferred `origObjW.Close()`: a failure appends `ErrSaving`. -/
def closeOrig (ok : Bool) (name : String) (st : GState)
    (errs : List GErr) : GState × List GErr :=
  let (st, k) := closeWriter ok name st
  if k then (st, errs) else (st, errs ++ [GErr.saving])

/-- The deferred `origObj.ACL().Set(ctx, storage.AllUsers, storage.RoleReader)`:
a failure appends `ErrMakingPublic`. -/
def aclSet (ok : Bool) (name : String) (st : GState)
    (errs : List GErr) : GState × List GErr :=
  let st := { st with aclAttempts := st.aclAttempts ++ [name] }
  if ok then ({ st with publicObjects := st.publicObjects ++ [name] }, errs)
  else (st, errs ++ [GErr.makingPublic])

/-- The deferred handlers of `TranscribeURL`, run in LIFO registration order
on every return path reached after they are registered: first the
intermediate-object deletes (registered last, only when
`!c.KeepIntermediateFiles`), then `origObjW.Close()` (when `c.StoreOriginal`),
then the ACL set (when `c.StoreOriginal && c.MakeOriginalPublic`). -/
def runDeferred (c : Client) (o : Oracle) (leftName rightName origName : String)
    (st : GState) (errs : List GErr) : GState × List GErr :=
  let p1 :=
    if c.KeepIntermediateFiles then (st, errs)
    else
      let q := deleteObj o.leftDeleteOk leftName GErr.deletingLeft st errs
      deleteObj o.rightDeleteOk rightName GErr.deletingRight q.1 q.2
  let p2 :=
    if c.StoreOriginal then closeOrig o.origCloseOk origName p1.1 p1.2
    else p1
  if c.StoreOriginal && c.MakeOriginalPublic then aclSet o.aclOk origName p2.1 p2.2
  else p2

/-- Result of a `TranscribeURL` call: the returned message slice, the
returned error (`[]` is `nil`), and the final external state. -/
structure TResult where
  msgs : List Message
  errs : List GErr
  state : GState
  deriving Repr, DecidableEq

/-- Shallow embedding of `(*Client).TranscribeURL`, following the Go control
flow path by path. The parallel stage is an `errgroup.Group` without a
derived context, so neither channel task is ever cancelled: both
`transcribeChannel` calls always run to completion, a failed side sends
`nil` on its channel, and the returned slice is
`append(<-leftMsgs, <-rightMsgs...)` while the error is the wrap of
`transcribeGrp.Wait()` (non-nil exactly when either side failed). -/
def TranscribeURL (c : Client) (o : Oracle) (url name : String) : TResult :=
  if o.httpGetOk = false then
    { msgs := [], errs := [GErr.httpGet], state := initState }
  else
    let base := deriveBase url name
    let origName := base ++ ".wav"
    let leftName := base ++ ".left.wav"
    let rightName := base ++ ".right.wav"
    let st := initState
    if o.splitOk = false then
      let p := runDeferred c o leftName rightName origName st [GErr.splitting]
      { msgs := [], errs := p.2, state := p.1 }
    else
      let cl := closeWriter o.leftCloseOk leftName st
      if cl.2 = false then
        let cr := closeWriter o.rightCloseOk rightName cl.1
        let p := runDeferred c o leftName rightName origName cr.1 [GErr.closingLeft]
        { msgs := [], errs := p.2, state := p.1 }
      else
        let cr := closeWriter o.rightCloseOk rightName cl.1
        if cr.2 = false then
          let p := runDeferred c o leftName rightName origName cr.1 [GErr.closingRight]
          { msgs := [], errs := p.2, state := p.1 }
        else
          let st := { cr.1 with recogCalls := cr.1.recogCalls ++
            [gsPath c.StorageBucket leftName, gsPath c.StorageBucket rightName] }
          let leftList := Option.getD o.leftRecog []
          let rightList := Option.getD o.rightRecog []
          let fatal : List GErr :=
            if Option.isNone o.leftRecog || Option.isNone o.rightRecog then
              [GErr.transcribing]
            else []
          let p := runDeferred c o leftName rightName origName st fatal
          { msgs := leftList ++ rightList, errs := p.2, state := p.1 }

/-! ### `splitWavChannels`: the ffmpeg invocation and its pipe wiring

`splitWavChannels` builds `exec.Command("ffmpeg", ...)` with one
`-map_channel 0.0.c pipe:n` clause per output, then wires
`cmd.Stderr = left` and `cmd.Stdout = right`. The embedding records the
exact argument list and derives which writer receives which physical
channel from it. -/

/-- The argument list of the `ffmpeg` command in `splitWavChannels`. -/
def ffmpegSplitArgs : List String :=
  ["-y",
   "-loglevel", "panic",
   "-i", "pipe:0",
   "-f", "wav", "-map_channel", "0.0.0", "pipe:1",
   "-f", "wav", "-map_channel", "0.0.1", "pipe:2"]

/-- The output pipe that an `ffmpeg` argument list sends a given
`-map_channel` channel specifier to (the argument right after the
specifier). -/
def outputPipeFor (ch : String) : List String → Option String
  | "-map_channel" :: c :: p :: rest =>
    if c = ch then some p else outputPipeFor ch rest
  | _ :: rest => outputPipeFor ch rest
  | [] => none

/-- The two writer parameters of `splitWavChannels`. -/
inductive SplitWriter where
  | left
  | right
  deriving Repr, DecidableEq

/-- The pipe wiring of `splitWavChannels`: `cmd.Stdout` is `pipe:1` and is
assigned the `right` writer; `cmd.Stderr` is `pipe:2` and is assigned the
`left` writer. -/
def splitWriterForPipe (p : String) : Option SplitWriter :=
  if p = "pipe:1" then some SplitWriter.right
  else if p = "pipe:2" then some SplitWriter.left
  else none

/-- Which writer of `splitWavChannels` receives a given physical channel
specifier, through the command arguments and the stdout/stderr wiring. -/
def splitWriterForChannel (ch : String) : Option SplitWriter :=
  Option.bind (outputPipeFor ch ffmpegSplitArgs) splitWriterForPipe

/-- The byte stream a given pipe of the subprocess carries, for a stereo
input whose first (0.0.0) channel decodes to `c0` and second (0.0.1)
channel to `c1`. -/
def pipeContents (c0 c1 : List Nat) (p : String) : List Nat :=
  if outputPipeFor "0.0.0" ffmpegSplitArgs = some p then c0
  else if outputPipeFor "0.0.1" ffmpegSplitArgs = some p then c1
  else []

/-- `splitWavChannels` data flow: the pair (bytes written to the `left`
writer, bytes written to the `right` writer), given the decoded contents of
the input's two physical channels. `left` is `cmd.Stderr` (`pipe:2`) and
`right` is `cmd.Stdout` (`pipe:1`). -/
def splitWavChannels (c0 c1 : List Nat) : List Nat × List Nat :=
  (pipeContents c0 c1 "pipe:2", pipeContents c0 c1 "pipe:1")

/-- The channel flag `transcribeChannel` is called with in `TranscribeURL`
for each writer's staged object: `true` for the object the `left` writer
filled (`leftName`), `false` for the `right` writer's object (`rightName`). -/
def chnFlagForWriter : SplitWriter → Bool
  | SplitWriter.left => true
  | SplitWriter.right => false

/-- The `Message.Channel` discriminator that utterances recognized from a
given physical channel specifier end up with. -/
def chnTagForPhysicalChannel (ch : String) : Option Bool :=
  Option.map chnFlagForWriter (splitWriterForChannel ch)

/-! ### `transcribeChannel`: request construction and response parsing -/

/-- `speechpb.SpeechContext` (its `Phrases` field). -/
structure SpeechContext where
  phrases : List String
  deriving Repr, DecidableEq

/-- The fields of `speechpb.RecognitionConfig` relevant to the request
built by `transcribeChannel`; fields the Go composite literal omits get
the proto zero value (`speechContexts` defaults to empty). -/
structure RecognitionConfig where
  encoding : String
  sampleRateHertz : Int
  languageCode : String
  enableWordTimeOffsets : Bool
  profanityFilter : Bool
  speechContexts : List SpeechContext := []
  deriving Repr, DecidableEq

/-- `speechpb.LongRunningRecognizeRequest` as built by `transcribeChannel`. -/
structure LongRunningRecognizeRequest where
  config : RecognitionConfig
  audioUri : String
  deriving Repr, DecidableEq

set_option linter.unusedVariables false in
/-- The request literal passed to `c.LongRunningRecognize` in
`transcribeChannel`. The `phrases` parameter of `transcribeChannel` is in
scope but the composite literal does not reference it. -/
def buildRecognizeRequest (uri : String) (phrases : List String)
    (profanityFilter : Bool) : LongRunningRecognizeRequest :=
  { config :=
      { encoding := "LINEAR16",
        sampleRateHertz := 8000,
        languageCode := "en-US",
        enableWordTimeOffsets := true,
        profanityFilter := profanityFilter },
    audioUri := uri }

/-- `durpb.Duration`: the protobuf duration carried by `WordInfo.StartTime`. -/
structure PDuration where
  seconds : Int
  nanos : Int
  deriving Repr, DecidableEq

/-- Reduce an integer into int64 two's-complement range, as Go's fixed-width
arithmetic does on overflow. -/
def toInt64 (n : Int) : Int :=
  (n + 9223372036854775808) % 18446744073709551616 - 9223372036854775808

/-- `ptypes.Duration`: validates the proto duration (seconds within ±10000
years, nanos within (-1e9, 1e9), signs agreeing) and converts it to a
`time.Duration` with Go's overflow checks; `none` embeds the error case.
Go's `/` on int64 truncates toward zero, hence `Int.div`. -/
def pdurToDuration (p : PDuration) : Option Int :=
  if p.seconds < -315576000000 ∨ 315576000000 < p.seconds then none
  else if p.nanos ≤ -1000000000 ∨ 1000000000 ≤ p.nanos then none
  else if (0 < p.seconds ∧ p.nanos < 0) ∨ (p.seconds < 0 ∧ 0 < p.nanos) then none
  else
    let d := toInt64 (p.seconds * 1000000000)
    if Int.tdiv d 1000000000 ≠ p.seconds then none
    else if p.nanos ≠ 0 then
      let d := toInt64 (d + p.nanos)
      if (decide (d < 0)) ≠ (decide (p.nanos < 0)) then none else some d
    else some d

/-- `speechpb.WordInfo` (the field `transcribeChannel` reads). -/
structure WordInfo where
  startTime : PDuration
  deriving Repr, DecidableEq

/-- `speechpb.SpeechRecognitionAlternative`. -/
structure SpeechRecognitionAlternative where
  transcript : String
  words : List WordInfo
  deriving Repr, DecidableEq

/-- `speechpb.SpeechRecognitionResult`. -/
structure SpeechRecognitionResult where
  alternatives : List SpeechRecognitionAlternative
  deriving Repr, DecidableEq

/-- `speechpb.LongRunningRecognizeResponse`. -/
structure LongRunningRecognizeResponse where
  results : List SpeechRecognitionResult
  deriving Repr, DecidableEq

/-- The `for _, result := range resp.Results` loop of `transcribeChannel`:
skips results with no alternatives or whose first alternative has no words,
converts the first word's start time (an invalid duration aborts the whole
call with an error, embedded as `none`), and appends one `Message` per kept
result in response order. -/
def parseResults (chn : Bool) : List SpeechRecognitionResult → Option (List Message)
  | [] => some []
  | r :: rest =>
    match r.alternatives with
    | [] => parseResults chn rest
    | alt0 :: _ =>
      match alt0.words with
      | [] => parseResults chn rest
      | word0 :: _ =>
        match pdurToDuration word0.startTime with
        | none => none
        | some dur =>
          match parseResults chn rest with
          | none => none
          | some ms =>
            some ({ Channel := chn, Offset := dur, Text := alt0.transcript } :: ms)

/-- The pure part of `transcribeChannel`: parsing a completed
`LongRunningRecognizeResponse` into messages tagged with `chn`. -/
def transcribeChannel (chn : Bool) (resp : LongRunningRecognizeResponse) :
    Option (List Message) :=
  parseResults chn resp.results

/-- Modelled from the spec (section 4.3 `await`), for comparison with
`parseResults`: extract, for a single recognized result, the first
alternative's transcript and the start offset of its first word; `none`
when the result has no alternatives, its first alternative has no words,
or the offset does not convert. -/
def extractMessage (chn : Bool) (r : SpeechRecognitionResult) : Option Message :=
  match r.alternatives with
  | [] => none
  | alt0 :: _ =>
    match alt0.words with
    | [] => none
    | word0 :: _ =>
      match pdurToDuration word0.startTime with
      | none => none
      | some dur => some { Channel := chn, Offset := dur, Text := alt0.transcript }

/-- A result either skipped by the loop or whose first word's start time
converts successfully (so the loop does not abort on it). -/
def validFirstWord (r : SpeechRecognitionResult) : Bool :=
  match r.alternatives with
  | [] => true
  | alt0 :: _ =>
    match alt0.words with
    | [] => true
    | word0 :: _ => Option.isSome (pdurToDuration word0.startTime)

/-- The external state of `TranscribeURL` just before the recognition stage
on the fully successful staging path: both channel objects written and
closed, both recognition URIs submitted. -/
def stagedState (bucket l r : String) : GState :=
  { objects := [l, r], closeCalled := [l, r], publicObjects := [],
    deletesIssued := [], aclAttempts := [],
    recogCalls := [gsPath bucket l, gsPath bucket r] }

/-- A sample recognition result list: one result with no alternatives, one
with a first alternative carrying a word at 0.5s, one whose first
alternative has no words. -/
def sampleResults : List SpeechRecognitionResult :=
  [⟨[]⟩, ⟨[⟨"hello", [⟨⟨0, 500000000⟩⟩]⟩]⟩, ⟨[⟨"x", []⟩]⟩]

/-! ### Helper lemmas about the embedded operations -/

theorem append_ne_of_length_ne (b s t : String) (h : s.length ≠ t.length) :
    b ++ s ≠ b ++ t := by
  intro heq
  apply h
  have hl := congrArg String.length heq
  rw [String.length_append, String.length_append] at hl
  exact Nat.add_left_cancel hl

theorem origName_ne_leftName (b : String) : b ++ ".wav" ≠ b ++ ".left.wav" :=
  append_ne_of_length_ne b _ _ (by decide)

theorem origName_ne_rightName (b : String) : b ++ ".wav" ≠ b ++ ".right.wav" :=
  append_ne_of_length_ne b _ _ (by decide)

theorem leftName_ne_rightName (b : String) : b ++ ".left.wav" ≠ b ++ ".right.wav" :=
  append_ne_of_length_ne b _ _ (by decide)

theorem closeWriter_fst_objects (ok : Bool) (n : String) (st : GState) :
    ((closeWriter ok n st).1).objects =
      if ok then st.objects ++ [n] else st.objects := by
  cases ok <;> rfl

theorem closeWriter_fst_closeCalled (ok : Bool) (n : String) (st : GState) :
    ((closeWriter ok n st).1).closeCalled = st.closeCalled ++ [n] := by
  cases ok <;> rfl

theorem closeWriter_fst_publicObjects (ok : Bool) (n : String) (st : GState) :
    ((closeWriter ok n st).1).publicObjects = st.publicObjects := by
  cases ok <;> rfl

theorem closeWriter_fst_deletesIssued (ok : Bool) (n : String) (st : GState) :
    ((closeWriter ok n st).1).deletesIssued = st.deletesIssued := by
  cases ok <;> rfl

theorem closeWriter_fst_aclAttempts (ok : Bool) (n : String) (st : GState) :
    ((closeWriter ok n st).1).aclAttempts = st.aclAttempts := by
  cases ok <;> rfl

theorem closeWriter_fst_recogCalls (ok : Bool) (n : String) (st : GState) :
    ((closeWriter ok n st).1).recogCalls = st.recogCalls := by
  cases ok <;> rfl

theorem closeWriter_snd (ok : Bool) (n : String) (st : GState) :
    (closeWriter ok n st).2 = ok := by
  cases ok <;> rfl

theorem deleteObj_fst_objects (ok : Bool) (n : String) (e : GErr) (st : GState)
    (errs : List GErr) :
    ((deleteObj ok n e st errs).1).objects =
      if n ∈ st.objects ∧ ok = true then
        List.filter (fun m => m ≠ n) st.objects
      else st.objects := by
  simp only [deleteObj]
  by_cases hm : n ∈ st.objects <;> cases ok <;> simp [hm]

theorem deleteObj_fst_closeCalled (ok : Bool) (n : String) (e : GErr) (st : GState)
    (errs : List GErr) :
    ((deleteObj ok n e st errs).1).closeCalled = st.closeCalled := by
  simp only [deleteObj]; split_ifs <;> rfl

theorem deleteObj_fst_publicObjects (ok : Bool) (n : String) (e : GErr) (st : GState)
    (errs : List GErr) :
    ((deleteObj ok n e st errs).1).publicObjects = st.publicObjects := by
  simp only [deleteObj]; split_ifs <;> rfl

theorem deleteObj_fst_deletesIssued (ok : Bool) (n : String) (e : GErr) (st : GState)
    (errs : List GErr) :
    ((deleteObj ok n e st errs).1).deletesIssued = st.deletesIssued ++ [n] := by
  simp only [deleteObj]; split_ifs <;> rfl

theorem deleteObj_fst_aclAttempts (ok : Bool) (n : String) (e : GErr) (st : GState)
    (errs : List GErr) :
    ((deleteObj ok n e st errs).1).aclAttempts = st.aclAttempts := by
  simp only [deleteObj]; split_ifs <;> rfl

theorem deleteObj_fst_recogCalls (ok : Bool) (n : String) (e : GErr) (st : GState)
    (errs : List GErr) :
    ((deleteObj ok n e st errs).1).recogCalls = st.recogCalls := by
  simp only [deleteObj]; split_ifs <;> rfl

theorem deleteObj_snd (ok : Bool) (n : String) (e : GErr) (st : GState)
    (errs : List GErr) :
    (deleteObj ok n e st errs).2 =
      if n ∈ st.objects ∧ ok = false then errs ++ [e] else errs := by
  simp only [deleteObj]
  by_cases hm : n ∈ st.objects <;> cases ok <;> simp [hm]

theorem closeOrig_fst_objects (ok : Bool) (n : String) (st : GState)
    (errs : List GErr) :
    ((closeOrig ok n st errs).1).objects =
      if ok then st.objects ++ [n] else st.objects := by
  cases ok <;> rfl

theorem closeOrig_fst_closeCalled (ok : Bool) (n : String) (st : GState)
    (errs : List GErr) :
    ((closeOrig ok n st errs).1).closeCalled = st.closeCalled ++ [n] := by
  cases ok <;> rfl

theorem closeOrig_fst_publicObjects (ok : Bool) (n : String) (st : GState)
    (errs : List GErr) :
    ((closeOrig ok n st errs).1).publicObjects = st.publicObjects := by
  cases ok <;> rfl

theorem closeOrig_fst_deletesIssued (ok : Bool) (n : String) (st : GState)
    (errs : List GErr) :
    ((closeOrig ok n st errs).1).deletesIssued = st.deletesIssued := by
  cases ok <;> rfl

theorem closeOrig_fst_aclAttempts (ok : Bool) (n : String) (st : GState)
    (errs : List GErr) :
    ((closeOrig ok n st errs).1).aclAttempts = st.aclAttempts := by
  cases ok <;> rfl

theorem closeOrig_fst_recogCalls (ok : Bool) (n : String) (st : GState)
    (errs : List GErr) :
    ((closeOrig ok n st errs).1).recogCalls = st.recogCalls := by
  cases ok <;> rfl

theorem closeOrig_snd (ok : Bool) (n : String) (st : GState) (errs : List GErr) :
    (closeOrig ok n st errs).2 = if ok then errs else errs ++ [GErr.saving] := by
  cases ok <;> rfl

theorem aclSet_fst_objects (ok : Bool) (n : String) (st : GState)
    (errs : List GErr) :
    ((aclSet ok n st errs).1).objects = st.objects := by
  cases ok <;> rfl

theorem aclSet_fst_closeCalled (ok : Bool) (n : String) (st : GState)
    (errs : List GErr) :
    ((aclSet ok n st errs).1).closeCalled = st.closeCalled := by
  cases ok <;> rfl

theorem aclSet_fst_publicObjects (ok : Bool) (n : String) (st : GState)
    (errs : List GErr) :
    ((aclSet ok n st errs).1).publicObjects =
      if ok then st.publicObjects ++ [n] else st.publicObjects := by
  cases ok <;> rfl

theorem aclSet_fst_deletesIssued (ok : Bool) (n : String) (st : GState)
    (errs : List GErr) :
    ((aclSet ok n st errs).1).deletesIssued = st.deletesIssued := by
  cases ok <;> rfl

theorem aclSet_fst_aclAttempts (ok : Bool) (n : String) (st : GState)
    (errs : List GErr) :
    ((aclSet ok n st errs).1).aclAttempts = st.aclAttempts ++ [n] := by
  cases ok <;> rfl

theorem aclSet_fst_recogCalls (ok : Bool) (n : String) (st : GState)
    (errs : List GErr) :
    ((aclSet ok n st errs).1).recogCalls = st.recogCalls := by
  cases ok <;> rfl

theorem aclSet_snd (ok : Bool) (n : String) (st : GState) (errs : List GErr) :
    (aclSet ok n st errs).2 =
      if ok then errs else errs ++ [GErr.makingPublic] := by
  cases ok <;> rfl

theorem runDeferred_fst_recogCalls (c : Client) (o : Oracle)
    (l r g : String) (st : GState) (errs : List GErr) :
    ((runDeferred c o l r g st errs).1).recogCalls = st.recogCalls := by
  unfold runDeferred
  split_ifs <;>
    simp [aclSet_fst_recogCalls, closeOrig_fst_recogCalls, deleteObj_fst_recogCalls]

theorem runDeferred_fst_aclAttempts (c : Client) (o : Oracle)
    (l r g : String) (st : GState) (errs : List GErr) :
    ((runDeferred c o l r g st errs).1).aclAttempts =
      st.aclAttempts ++ (if c.StoreOriginal && c.MakeOriginalPublic then [g] else []) := by
  unfold runDeferred
  split_ifs <;>
    simp_all [aclSet_fst_aclAttempts, closeOrig_fst_aclAttempts, deleteObj_fst_aclAttempts]

theorem runDeferred_fst_closeCalled (c : Client) (o : Oracle)
    (l r g : String) (st : GState) (errs : List GErr) :
    ((runDeferred c o l r g st errs).1).closeCalled =
      st.closeCalled ++ (if c.StoreOriginal then [g] else []) := by
  unfold runDeferred
  split_ifs <;>
    simp_all [aclSet_fst_closeCalled, closeOrig_fst_closeCalled, deleteObj_fst_closeCalled]

theorem runDeferred_fst_deletesIssued (c : Client) (o : Oracle)
    (l r g : String) (st : GState) (errs : List GErr) :
    ((runDeferred c o l r g st errs).1).deletesIssued =
      st.deletesIssued ++ (if c.KeepIntermediateFiles then [] else [l, r]) := by
  unfold runDeferred
  split_ifs <;>
    simp_all [aclSet_fst_deletesIssued, closeOrig_fst_deletesIssued, deleteObj_fst_deletesIssued]

theorem deleteObj_not_mem_self (n : String) (e : GErr) (st : GState)
    (errs : List GErr) :
    n ∉ ((deleteObj true n e st errs).1).objects := by
  rw [deleteObj_fst_objects]
  split_ifs with h
  · simp [List.mem_filter]
  · intro hn
    exact h ⟨hn, rfl⟩

theorem deleteObj_not_mem_preserve (ok : Bool) (x n : String) (e : GErr)
    (st : GState) (errs : List GErr) (hx : x ∉ st.objects) :
    x ∉ ((deleteObj ok n e st errs).1).objects := by
  rw [deleteObj_fst_objects]
  split_ifs
  · intro hmem
    exact hx (List.mem_of_mem_filter hmem)
  · exact hx

theorem runDeferred_not_mem_left (c : Client) (o : Oracle)
    (l r g : String) (st : GState) (errs : List GErr)
    (hk : c.KeepIntermediateFiles = false) (hld : o.leftDeleteOk = true)
    (hgl : g ≠ l) :
    l ∉ ((runDeferred c o l r g st errs).1).objects := by
  obtain ⟨bucket, so, mp, ki, ph, pf⟩ := c
  obtain ⟨w1, w2, w3, w4, oc, ac, ld, rd, lr, rr⟩ := o
  simp only [] at hk hld
  subst hk; subst hld
  have h1 : l ∉ ((deleteObj true l GErr.deletingLeft st errs).1).objects :=
    deleteObj_not_mem_self l GErr.deletingLeft st errs
  have h2 := deleteObj_not_mem_preserve rd l r GErr.deletingRight
    (deleteObj true l GErr.deletingLeft st errs).1
    (deleteObj true l GErr.deletingLeft st errs).2 h1
  cases so <;> cases mp <;> cases oc <;>
    simp_all [runDeferred, aclSet_fst_objects, closeOrig_fst_objects, Ne.symm hgl]

theorem runDeferred_not_mem_right (c : Client) (o : Oracle)
    (l r g : String) (st : GState) (errs : List GErr)
    (hk : c.KeepIntermediateFiles = false) (hrd : o.rightDeleteOk = true)
    (hgr : g ≠ r) :
    r ∉ ((runDeferred c o l r g st errs).1).objects := by
  obtain ⟨bucket, so, mp, ki, ph, pf⟩ := c
  obtain ⟨w1, w2, w3, w4, oc, ac, ld, rd, lr, rr⟩ := o
  simp only [] at hk hrd
  subst hk; subst hrd
  have h2 : r ∉ ((deleteObj true r GErr.deletingRight
      (deleteObj ld l GErr.deletingLeft st errs).1
      (deleteObj ld l GErr.deletingLeft st errs).2).1).objects :=
    deleteObj_not_mem_self r GErr.deletingRight _ _
  cases so <;> cases mp <;> cases oc <;>
    simp_all [runDeferred, aclSet_fst_objects, closeOrig_fst_objects, Ne.symm hgr]

theorem runDeferred_objects_keep (c : Client) (o : Oracle)
    (l r g : String) (st : GState) (errs : List GErr)
    (hk : c.KeepIntermediateFiles = true) :
    ((runDeferred c o l r g st errs).1).objects =
      st.objects ++
        (if c.StoreOriginal = true ∧ o.origCloseOk = true then [g] else []) := by
  obtain ⟨bucket, so, mp, ki, ph, pf⟩ := c
  obtain ⟨w1, w2, w3, w4, oc, ac, ld, rd, lr, rr⟩ := o
  simp only [] at hk
  subst hk
  cases so <;> cases mp <;> cases oc <;>
    simp_all [runDeferred, aclSet_fst_objects, closeOrig_fst_objects]

theorem runDeferred_snd_mem (c : Client) (o : Oracle)
    (l r g : String) (st : GState) (errs : List GErr)
    (x : GErr) (hx : x ∈ errs) :
    x ∈ (runDeferred c o l r g st errs).2 := by
  unfold runDeferred
  split_ifs <;>
    simp_all [aclSet_snd, closeOrig_snd, deleteObj_snd] <;>
    split_ifs <;> simp_all

theorem runDeferred_snd_makingPublic (c : Client) (o : Oracle)
    (l r g : String) (st : GState) (errs : List GErr)
    (hso : c.StoreOriginal = true) (hmp : c.MakeOriginalPublic = true)
    (hacl : o.aclOk = false) :
    GErr.makingPublic ∈ (runDeferred c o l r g st errs).2 := by
  unfold runDeferred
  split_ifs <;>
    simp_all [aclSet_snd, closeOrig_snd, deleteObj_snd] <;>
    split_ifs <;> simp_all

theorem runDeferred_snd_no_delete (c : Client) (o : Oracle)
    (l r g : String) (st : GState) (errs : List GErr)
    (hl : l ∉ st.objects) (hr : r ∉ st.objects) :
    (runDeferred c o l r g st errs).2 =
      (errs ++
        (if c.StoreOriginal = true ∧ o.origCloseOk = false then [GErr.saving] else [])) ++
        (if c.StoreOriginal = true ∧ c.MakeOriginalPublic = true ∧ o.aclOk = false then
          [GErr.makingPublic] else []) := by
  unfold runDeferred
  have hobj : ((deleteObj o.leftDeleteOk l GErr.deletingLeft st errs).1).objects =
      st.objects := by
    rw [deleteObj_fst_objects]
    split_ifs with h
    · exact absurd h.1 hl
    · rfl
  split_ifs <;>
    simp_all [aclSet_snd, closeOrig_snd, deleteObj_snd, hobj] <;>
    split_ifs <;> simp_all

theorem TranscribeURL_split_fail (c : Client) (o : Oracle) (url name : String)
    (hget : o.httpGetOk = true) (hsplit : o.splitOk = false) :
    TranscribeURL c o url name =
      { msgs := [],
        errs := (runDeferred c o (deriveBase url name ++ ".left.wav")
          (deriveBase url name ++ ".right.wav") (deriveBase url name ++ ".wav")
          initState [GErr.splitting]).2,
        state := (runDeferred c o (deriveBase url name ++ ".left.wav")
          (deriveBase url name ++ ".right.wav") (deriveBase url name ++ ".wav")
          initState [GErr.splitting]).1 } := by
  simp [TranscribeURL, hget, hsplit]

theorem TranscribeURL_left_close_fail (c : Client) (o : Oracle) (url name : String)
    (hget : o.httpGetOk = true) (hsplit : o.splitOk = true)
    (hlc : o.leftCloseOk = false) :
    TranscribeURL c o url name =
      { msgs := [],
        errs := (runDeferred c o (deriveBase url name ++ ".left.wav")
          (deriveBase url name ++ ".right.wav") (deriveBase url name ++ ".wav")
          (closeWriter o.rightCloseOk (deriveBase url name ++ ".right.wav")
            { initState with closeCalled := [deriveBase url name ++ ".left.wav"] }).1
          [GErr.closingLeft]).2,
        state := (runDeferred c o (deriveBase url name ++ ".left.wav")
          (deriveBase url name ++ ".right.wav") (deriveBase url name ++ ".wav")
          (closeWriter o.rightCloseOk (deriveBase url name ++ ".right.wav")
            { initState with closeCalled := [deriveBase url name ++ ".left.wav"] }).1
          [GErr.closingLeft]).1 } := by
  simp [TranscribeURL, hget, hsplit, hlc, closeWriter, initState]

theorem TranscribeURL_right_close_fail (c : Client) (o : Oracle) (url name : String)
    (hget : o.httpGetOk = true) (hsplit : o.splitOk = true)
    (hlc : o.leftCloseOk = true) (hrc : o.rightCloseOk = false) :
    TranscribeURL c o url name =
      { msgs := [],
        errs := (runDeferred c o (deriveBase url name ++ ".left.wav")
          (deriveBase url name ++ ".right.wav") (deriveBase url name ++ ".wav")
          { initState with
              objects := [deriveBase url name ++ ".left.wav"],
              closeCalled := [deriveBase url name ++ ".left.wav",
                deriveBase url name ++ ".right.wav"] }
          [GErr.closingRight]).2,
        state := (runDeferred c o (deriveBase url name ++ ".left.wav")
          (deriveBase url name ++ ".right.wav") (deriveBase url name ++ ".wav")
          { initState with
              objects := [deriveBase url name ++ ".left.wav"],
              closeCalled := [deriveBase url name ++ ".left.wav",
                deriveBase url name ++ ".right.wav"] }
          [GErr.closingRight]).1 } := by
  simp [TranscribeURL, hget, hsplit, hlc, hrc, closeWriter, initState]

theorem TranscribeURL_run (c : Client) (o : Oracle) (url name : String)
    (hget : o.httpGetOk = true) (hsplit : o.splitOk = true)
    (hlc : o.leftCloseOk = true) (hrc : o.rightCloseOk = true) :
    TranscribeURL c o url name =
      { msgs := Option.getD o.leftRecog [] ++ Option.getD o.rightRecog [],
        errs := (runDeferred c o (deriveBase url name ++ ".left.wav")
          (deriveBase url name ++ ".right.wav") (deriveBase url name ++ ".wav")
          (stagedState c.StorageBucket (deriveBase url name ++ ".left.wav")
            (deriveBase url name ++ ".right.wav"))
          (if Option.isNone o.leftRecog || Option.isNone o.rightRecog then
            [GErr.transcribing] else [])).2,
        state := (runDeferred c o (deriveBase url name ++ ".left.wav")
          (deriveBase url name ++ ".right.wav") (deriveBase url name ++ ".wav")
          (stagedState c.StorageBucket (deriveBase url name ++ ".left.wav")
            (deriveBase url name ++ ".right.wav"))
          (if Option.isNone o.leftRecog || Option.isNone o.rightRecog then
            [GErr.transcribing] else [])).1 } := by
  simp [TranscribeURL, hget, hsplit, hlc, hrc, closeWriter, initState, stagedState]

/-! ### Claim theorems -/


theorem trimSuffix_append (b s : String) : trimSuffix (b ++ s) s = b := by
  have hs : hasSuffix (b ++ s) s = true := by
    rw [hasSuffix, show (b ++ s).data = b.data ++ s.data from rfl,
      List.isSuffixOf_iff_suffix]
    exact List.suffix_append b.data s.data
  rw [trimSuffix, if_pos hs, show (b ++ s).data = b.data ++ s.data from rfl]
  rw [List.length_append, Nat.add_sub_cancel, List.take_left]

/-- Claim C10: the `ByTime` sort order compares messages solely by `Offset`:
`Less i j` holds exactly when message `i` has strictly smaller offset than
message `j`, so equal offsets make neither less than the other, and channel
and text never influence the order. -/
theorem claim10_bytime_less_iff_offset (s : ByTime) (i j : Fin (ByTime.Len s)) :
    ByTime.Less s i j = true ↔ (List.get s i).Offset < (List.get s j).Offset := by
  simp [ByTime.Less]

/-- Claim C2 (divergence witness): the splitter's pipe wiring delivers the
input's first physical channel (0.0.0, ffmpeg stdout) to the `right` writer
and the second (0.0.1, ffmpeg stderr) to the `left` writer, so utterances
recognized from channel 0.0.0 carry `Channel = false` and those from 0.0.1
carry `Channel = true` - the opposite of the claimed tagging. -/
theorem claim2_channel_discriminator_swapped :
    (∀ c0 c1 : List Nat, splitWavChannels c0 c1 = (c1, c0)) ∧
    chnTagForPhysicalChannel "0.0.0" = some false ∧
    chnTagForPhysicalChannel "0.0.1" = some true :=
  ⟨fun c0 c1 => rfl, by decide, by decide⟩

/-- Claim C3 (divergence witness): the recognition request always enables
word-level time offsets and carries the configured profanity-filter flag,
but its speech contexts are empty whatever seed phrases the caller
configured - the `phrases` parameter is dropped. -/
theorem claim3_request_config (uri : String) (phrases : List String) (pf : Bool) :
    (buildRecognizeRequest uri phrases pf).config.enableWordTimeOffsets = true ∧
    (buildRecognizeRequest uri phrases pf).config.profanityFilter = pf ∧
    (buildRecognizeRequest uri phrases pf).config.speechContexts = [] :=
  ⟨rfl, rfl, rfl⟩

theorem parseResults_eq_filterMap (chn : Bool) (rs : List SpeechRecognitionResult)
    (hv : ∀ r ∈ rs, validFirstWord r = true) :
    parseResults chn rs = some (List.filterMap (extractMessage chn) rs) := by
  induction rs with
  | nil => rfl
  | cons r rest ih =>
    have hr := hv r (List.mem_cons_self r rest)
    have hrest : ∀ x ∈ rest, validFirstWord x = true :=
      fun x hx => hv x (List.mem_cons_of_mem r hx)
    cases halt : r.alternatives with
    | nil =>
      simp [parseResults, extractMessage, halt, ih hrest]
    | cons alt0 tl =>
      cases hw : alt0.words with
      | nil =>
        simp [parseResults, extractMessage, halt, hw, ih hrest]
      | cons w0 wt =>
        have hr2 : Option.isSome (pdurToDuration w0.startTime) = true := by
          simp [validFirstWord, halt, hw] at hr
          exact hr
        obtain ⟨dur, hd⟩ := Option.isSome_iff_exists.mp hr2
        simp [parseResults, extractMessage, halt, hw, hd, ih hrest]

/-- Claim C9: for every recognition response whose kept results have
convertible first-word offsets, `transcribeChannel` produces, in response
order, one message per result having at least one alternative with at
least one word - using the first alternative's transcript and its first
word's start offset - and silently skips every result with no
alternatives or whose first alternative has no words. -/
theorem claim9_first_alternative_first_word (chn : Bool)
    (resp : LongRunningRecognizeResponse)
    (hv : ∀ r ∈ resp.results, validFirstWord r = true) :
    transcribeChannel chn resp =
      some (List.filterMap (extractMessage chn) resp.results) :=
  parseResults_eq_filterMap chn resp.results hv

/-- Claim C9 witness: the parse theorem applied to a concrete response
containing a kept result, a result with no alternatives and a result whose
first alternative has no words. -/
theorem claim9_witness :
    (∀ r ∈ sampleResults, validFirstWord r = true) ∧
    transcribeChannel true ⟨sampleResults⟩ =
      some (List.filterMap (extractMessage true) sampleResults) :=
  ⟨by decide, claim9_first_alternative_first_word true ⟨sampleResults⟩ (by decide)⟩

/-- Claim C5 counterexample: for a URL ending in `.mp3` and an empty
caller-supplied name, the base used is the last path segment with the
extension kept, not stripped. -/
theorem claim5_counterexample :
    deriveBase "http://example.com/rec.mp3" "" = "rec.mp3" ∧
    deriveBase "http://example.com/rec.mp3" "" ≠ "rec" := by
  constructor
  · rfl
  · decide

/-- Claim C5 (amended): with an empty caller-supplied name the base is the
URL's last path segment with a `.wav` suffix (and only a `.wav` suffix)
stripped; the left and right staged object names are that base plus
`.left.wav` and `.right.wav`, and the original object (when StoreOriginal
is set) is named base plus `.wav`. -/
theorem claim5_default_name_derivation (c : Client) (o : Oracle) (url : String)
    (hget : o.httpGetOk = true) (hsplit : o.splitOk = false)
    (hkeep : c.KeepIntermediateFiles = false) :
    (TranscribeURL c o url "").state.deletesIssued =
      [deriveBase url "" ++ ".left.wav", deriveBase url "" ++ ".right.wav"] ∧
    (c.StoreOriginal = true →
      (deriveBase url "" ++ ".wav") ∈ (TranscribeURL c o url "").state.closeCalled) ∧
    deriveBase url "" = trimSuffix (pathBase url) ".wav" ∧
    (hasSuffix (pathBase url) ".wav" = false → deriveBase url "" = pathBase url) ∧
    (∀ b : String, pathBase url = b ++ ".wav" → deriveBase url "" = b) := by
  refine ⟨?_, ?_, ?_, ?_, ?_⟩
  · rw [TranscribeURL_split_fail c o url "" hget hsplit]
    simp [runDeferred_fst_deletesIssued, hkeep, initState]
  · intro hso
    rw [TranscribeURL_split_fail c o url "" hget hsplit]
    simp [runDeferred_fst_closeCalled, hso, initState]
  · rfl
  · intro h
    simp [deriveBase, trimSuffix, h]
  · intro b hb
    simp [deriveBase, hb, trimSuffix_append]

/-- Claim C5 witness: the amended naming theorem applied to a concrete
client, oracle and URL. -/
theorem claim5_witness :
    (TranscribeURL ⟨"b", true, false, false, [], false⟩
        ⟨true, false, true, true, true, true, true, true, none, none⟩
        "http://h/rec.wav" "").state.deletesIssued =
      [deriveBase "http://h/rec.wav" "" ++ ".left.wav",
        deriveBase "http://h/rec.wav" "" ++ ".right.wav"] ∧
    (true = true →
      (deriveBase "http://h/rec.wav" "" ++ ".wav") ∈
        (TranscribeURL ⟨"b", true, false, false, [], false⟩
          ⟨true, false, true, true, true, true, true, true, none, none⟩
          "http://h/rec.wav" "").state.closeCalled) ∧
    deriveBase "http://h/rec.wav" "" = trimSuffix (pathBase "http://h/rec.wav") ".wav" ∧
    (hasSuffix (pathBase "http://h/rec.wav") ".wav" = false →
      deriveBase "http://h/rec.wav" "" = pathBase "http://h/rec.wav") ∧
    (∀ b : String, pathBase "http://h/rec.wav" = b ++ ".wav" →
      deriveBase "http://h/rec.wav" "" = b) :=
  claim5_default_name_derivation ⟨"b", true, false, false, [], false⟩
    ⟨true, false, true, true, true, true, true, true, none, none⟩
    "http://h/rec.wav" rfl rfl rfl

end Gcloudvoice

namespace Gcloudvoice

/-- Claim C1 counterexample: with the left recognition failing and the
right producing one message, the call returns a non-nil error AND a
non-empty message list - the surviving side is returned, not an empty
transcript. -/
theorem claim1_counterexample :
    (TranscribeURL ⟨"b", false, false, false, [], false⟩
        ⟨true, true, true, true, true, true, true, true, none, some [⟨false, 5, "hi"⟩]⟩
        "http://h/r.wav" "").errs ≠ [] ∧
    (TranscribeURL ⟨"b", false, false, false, [], false⟩
        ⟨true, true, true, true, true, true, true, true, none, some [⟨false, 5, "hi"⟩]⟩
        "http://h/r.wav" "").msgs ≠ [] := by
  decide

/-- Claim C1 (amended): when exactly one recognition side fails, both
sides are still submitted and awaited (no cancellation), the call returns
a non-nil error, and the returned message list is the concatenation of
whatever each side produced (the failing side contributing nil), not an
empty list. -/
theorem claim1_one_sided_failure (c : Client) (o : Oracle) (url name : String)
    (hget : o.httpGetOk = true) (hsplit : o.splitOk = true)
    (hlc : o.leftCloseOk = true) (hrc : o.rightCloseOk = true)
    (hone : Option.isNone o.leftRecog ≠ Option.isNone o.rightRecog) :
    gsPath c.StorageBucket (deriveBase url name ++ ".left.wav") ∈
      (TranscribeURL c o url name).state.recogCalls ∧
    gsPath c.StorageBucket (deriveBase url name ++ ".right.wav") ∈
      (TranscribeURL c o url name).state.recogCalls ∧
    (TranscribeURL c o url name).errs ≠ [] ∧
    (TranscribeURL c o url name).msgs =
      Option.getD o.leftRecog [] ++ Option.getD o.rightRecog [] := by
  rw [TranscribeURL_run c o url name hget hsplit hlc hrc]
  have hfat : (if Option.isNone o.leftRecog || Option.isNone o.rightRecog then
      [GErr.transcribing] else []) = [GErr.transcribing] := by
    cases hl : Option.isNone o.leftRecog <;>
      cases hr : Option.isNone o.rightRecog <;> simp_all
  refine ⟨?_, ?_, ?_, rfl⟩
  · simp [runDeferred_fst_recogCalls, stagedState]
  · simp [runDeferred_fst_recogCalls, stagedState]
  · intro hnil
    simp only [] at hnil
    rw [hfat] at hnil
    have hm := runDeferred_snd_mem c o (deriveBase url name ++ ".left.wav")
      (deriveBase url name ++ ".right.wav") (deriveBase url name ++ ".wav")
      (stagedState c.StorageBucket (deriveBase url name ++ ".left.wav")
        (deriveBase url name ++ ".right.wav"))
      [GErr.transcribing] GErr.transcribing (by simp)
    rw [hnil] at hm
    simp at hm

/-- Claim C1 witness: the amended theorem applied to a concrete client and
oracle where only the left side fails. -/
theorem claim1_witness :
    gsPath "b" (deriveBase "http://h/r.wav" "" ++ ".left.wav") ∈
      (TranscribeURL ⟨"b", false, false, false, [], false⟩
        ⟨true, true, true, true, true, true, true, true, none, some [⟨false, 5, "hi"⟩]⟩
        "http://h/r.wav" "").state.recogCalls ∧
    gsPath "b" (deriveBase "http://h/r.wav" "" ++ ".right.wav") ∈
      (TranscribeURL ⟨"b", false, false, false, [], false⟩
        ⟨true, true, true, true, true, true, true, true, none, some [⟨false, 5, "hi"⟩]⟩
        "http://h/r.wav" "").state.recogCalls ∧
    (TranscribeURL ⟨"b", false, false, false, [], false⟩
        ⟨true, true, true, true, true, true, true, true, none, some [⟨false, 5, "hi"⟩]⟩
        "http://h/r.wav" "").errs ≠ [] ∧
    (TranscribeURL ⟨"b", false, false, false, [], false⟩
        ⟨true, true, true, true, true, true, true, true, none, some [⟨false, 5, "hi"⟩]⟩
        "http://h/r.wav" "").msgs =
      Option.getD (none : Option (List Message)) [] ++
        Option.getD (some [⟨false, 5, "hi"⟩]) [] := by
  exact claim1_one_sided_failure ⟨"b", false, false, false, [], false⟩
    ⟨true, true, true, true, true, true, true, true, none, some [⟨false, 5, "hi"⟩]⟩
    "http://h/r.wav" "" rfl rfl rfl rfl (by decide)

end Gcloudvoice

namespace Gcloudvoice

/-- Claim C8: the returned message list is exactly the left list followed
by the right list, with no reordering or sorting by the orchestrator. -/
theorem claim8_concatenation (c : Client) (o : Oracle) (url name : String)
    (l r : List Message)
    (hget : o.httpGetOk = true) (hsplit : o.splitOk = true)
    (hlc : o.leftCloseOk = true) (hrc : o.rightCloseOk = true)
    (hl : o.leftRecog = some l) (hr : o.rightRecog = some r) :
    (TranscribeURL c o url name).msgs = l ++ r := by
  rw [TranscribeURL_run c o url name hget hsplit hlc hrc]
  simp [hl, hr]

/-- Claim C8 witness: the concatenation theorem applied to concrete
per-channel result lists. -/
theorem claim8_witness :
    (TranscribeURL ⟨"b", false, false, false, [], false⟩
        ⟨true, true, true, true, true, true, true, true,
          some [⟨true, 1, "a"⟩], some [⟨false, 2, "b"⟩]⟩
        "http://h/r.wav" "").msgs = [⟨true, 1, "a"⟩] ++ [⟨false, 2, "b"⟩] :=
  claim8_concatenation ⟨"b", false, false, false, [], false⟩
    ⟨true, true, true, true, true, true, true, true,
      some [⟨true, 1, "a"⟩], some [⟨false, 2, "b"⟩]⟩
    "http://h/r.wav" "" [⟨true, 1, "a"⟩] [⟨false, 2, "b"⟩] rfl rfl rfl rfl rfl rfl

/-- Claim C6: with StoreOriginal and MakeOriginalPublic both enabled, the
ACL set on the original object is attempted on every return path after the
fetch (split failure, either close failure, or the recognition stage), a
failure of it appends ErrMakingPublic to the returned error, and the
messages of the recognition stage are returned regardless. -/
theorem claim6_make_public_always_attempted (c : Client) (o : Oracle)
    (url name : String)
    (hso : c.StoreOriginal = true) (hmp : c.MakeOriginalPublic = true)
    (hget : o.httpGetOk = true) :
    (deriveBase url name ++ ".wav") ∈ (TranscribeURL c o url name).state.aclAttempts ∧
    (o.aclOk = false → GErr.makingPublic ∈ (TranscribeURL c o url name).errs) ∧
    (o.splitOk = true → o.leftCloseOk = true → o.rightCloseOk = true →
      (TranscribeURL c o url name).msgs =
        Option.getD o.leftRecog [] ++ Option.getD o.rightRecog []) := by
  refine ⟨?_, ?_, ?_⟩
  · cases hsp : o.splitOk with
    | false =>
      rw [TranscribeURL_split_fail c o url name hget hsp]
      simp [runDeferred_fst_aclAttempts, hso, hmp, initState]
    | true =>
      cases hlc : o.leftCloseOk with
      | false =>
        rw [TranscribeURL_left_close_fail c o url name hget hsp hlc]
        simp [runDeferred_fst_aclAttempts, hso, hmp, closeWriter_fst_aclAttempts,
          initState]
      | true =>
        cases hrc : o.rightCloseOk with
        | false =>
          rw [TranscribeURL_right_close_fail c o url name hget hsp hlc hrc]
          simp [runDeferred_fst_aclAttempts, hso, hmp, initState]
        | true =>
          rw [TranscribeURL_run c o url name hget hsp hlc hrc]
          simp [runDeferred_fst_aclAttempts, hso, hmp, stagedState]
  · intro hacl
    cases hsp : o.splitOk with
    | false =>
      rw [TranscribeURL_split_fail c o url name hget hsp]
      exact runDeferred_snd_makingPublic _ _ _ _ _ _ _ hso hmp hacl
    | true =>
      cases hlc : o.leftCloseOk with
      | false =>
        rw [TranscribeURL_left_close_fail c o url name hget hsp hlc]
        exact runDeferred_snd_makingPublic _ _ _ _ _ _ _ hso hmp hacl
      | true =>
        cases hrc : o.rightCloseOk with
        | false =>
          rw [TranscribeURL_right_close_fail c o url name hget hsp hlc hrc]
          exact runDeferred_snd_makingPublic _ _ _ _ _ _ _ hso hmp hacl
        | true =>
          rw [TranscribeURL_run c o url name hget hsp hlc hrc]
          exact runDeferred_snd_makingPublic _ _ _ _ _ _ _ hso hmp hacl
  · intro hsp hlc hrc
    rw [TranscribeURL_run c o url name hget hsp hlc hrc]

/-- Claim C6 witness: the theorem applied to a concrete client and oracle
where the ACL set fails and the left recognition fails. -/
theorem claim6_witness :
    (deriveBase "http://h/r.wav" "" ++ ".wav") ∈
      (TranscribeURL ⟨"b", true, true, false, [], false⟩
        ⟨true, true, true, true, true, false, true, true,
          none, some [⟨false, 5, "hi"⟩]⟩
        "http://h/r.wav" "").state.aclAttempts ∧
    (false = false → GErr.makingPublic ∈
      (TranscribeURL ⟨"b", true, true, false, [], false⟩
        ⟨true, true, true, true, true, false, true, true,
          none, some [⟨false, 5, "hi"⟩]⟩
        "http://h/r.wav" "").errs) ∧
    (true = true → true = true → true = true →
      (TranscribeURL ⟨"b", true, true, false, [], false⟩
        ⟨true, true, true, true, true, false, true, true,
          none, some [⟨false, 5, "hi"⟩]⟩
        "http://h/r.wav" "").msgs =
        Option.getD (none : Option (List Message)) [] ++
          Option.getD (some [⟨false, 5, "hi"⟩]) []) :=
  claim6_make_public_always_attempted ⟨"b", true, true, false, [], false⟩
    ⟨true, true, true, true, true, false, true, true,
      none, some [⟨false, 5, "hi"⟩]⟩
    "http://h/r.wav" "" rfl rfl rfl

end Gcloudvoice

namespace Gcloudvoice

/-- Claim C4 counterexample: on a split failure the deferred cleanup runs
(deletes are issued and a fatal error is returned) yet no writer Close is
ever called, refuting the claim that the opened left/right sinks are
closed. -/
theorem claim4_counterexample :
    (TranscribeURL ⟨"b", false, false, false, [], false⟩
        ⟨true, false, true, true, true, true, true, true, none, none⟩
        "http://h/r.wav" "").state.closeCalled = [] ∧
    (TranscribeURL ⟨"b", false, false, false, [], false⟩
        ⟨true, false, true, true, true, true, true, true, none, none⟩
        "http://h/r.wav" "").state.deletesIssued ≠ [] ∧
    (TranscribeURL ⟨"b", false, false, false, [], false⟩
        ⟨true, false, true, true, true, true, true, true, none, none⟩
        "http://h/r.wav" "").errs ≠ [] := by
  decide

/-- Claim C4 (amended): when the split stage fails after the sinks were
opened, the left and right writers are NOT closed; the deferred cleanup
instead deletes the left and right objects (when intermediates are not
kept) without reporting the not-found deletes as errors, closes the
original sink when one was opened, and the fatal split error is
returned. -/
theorem claim4_split_failure_cleanup (c : Client) (o : Oracle) (url name : String)
    (hget : o.httpGetOk = true) (hsplit : o.splitOk = false) :
    (deriveBase url name ++ ".left.wav") ∉
      (TranscribeURL c o url name).state.closeCalled ∧
    (deriveBase url name ++ ".right.wav") ∉
      (TranscribeURL c o url name).state.closeCalled ∧
    (c.KeepIntermediateFiles = false →
      (deriveBase url name ++ ".left.wav") ∈
        (TranscribeURL c o url name).state.deletesIssued ∧
      (deriveBase url name ++ ".right.wav") ∈
        (TranscribeURL c o url name).state.deletesIssued ∧
      GErr.deletingLeft ∉ (TranscribeURL c o url name).errs ∧
      GErr.deletingRight ∉ (TranscribeURL c o url name).errs) ∧
    (c.StoreOriginal = true →
      (deriveBase url name ++ ".wav") ∈
        (TranscribeURL c o url name).state.closeCalled) ∧
    GErr.splitting ∈ (TranscribeURL c o url name).errs := by
  rw [TranscribeURL_split_fail c o url name hget hsplit]
  have hnd := runDeferred_snd_no_delete c o (deriveBase url name ++ ".left.wav")
    (deriveBase url name ++ ".right.wav") (deriveBase url name ++ ".wav")
    initState [GErr.splitting] (by simp [initState]) (by simp [initState])
  refine ⟨?_, ?_, ?_, ?_, ?_⟩
  · simp only [runDeferred_fst_closeCalled, initState]
    split_ifs <;> simp [Ne.symm (origName_ne_leftName (deriveBase url name))]
  · simp only [runDeferred_fst_closeCalled, initState]
    split_ifs <;> simp [Ne.symm (origName_ne_rightName (deriveBase url name))]
  · intro hk
    refine ⟨?_, ?_, ?_, ?_⟩
    · simp [runDeferred_fst_deletesIssued, hk, initState]
    · simp [runDeferred_fst_deletesIssued, hk, initState]
    · rw [hnd]
      split_ifs <;> simp
    · rw [hnd]
      split_ifs <;> simp
  · intro hso
    simp [runDeferred_fst_closeCalled, hso, initState]
  · exact runDeferred_snd_mem c o _ _ _ initState [GErr.splitting]
      GErr.splitting (by simp)

/-- Claim C4 witness: the amended theorem applied to a concrete client
(StoreOriginal on, intermediates not kept) and an oracle whose split
fails. -/
theorem claim4_witness :
    (deriveBase "http://h/r.wav" "" ++ ".left.wav") ∉
      (TranscribeURL ⟨"b", true, false, false, [], false⟩
        ⟨true, false, true, true, true, true, true, true, none, none⟩
        "http://h/r.wav" "").state.closeCalled ∧
    (deriveBase "http://h/r.wav" "" ++ ".right.wav") ∉
      (TranscribeURL ⟨"b", true, false, false, [], false⟩
        ⟨true, false, true, true, true, true, true, true, none, none⟩
        "http://h/r.wav" "").state.closeCalled ∧
    (false = false →
      (deriveBase "http://h/r.wav" "" ++ ".left.wav") ∈
        (TranscribeURL ⟨"b", true, false, false, [], false⟩
          ⟨true, false, true, true, true, true, true, true, none, none⟩
          "http://h/r.wav" "").state.deletesIssued ∧
      (deriveBase "http://h/r.wav" "" ++ ".right.wav") ∈
        (TranscribeURL ⟨"b", true, false, false, [], false⟩
          ⟨true, false, true, true, true, true, true, true, none, none⟩
          "http://h/r.wav" "").state.deletesIssued ∧
      GErr.deletingLeft ∉
        (TranscribeURL ⟨"b", true, false, false, [], false⟩
          ⟨true, false, true, true, true, true, true, true, none, none⟩
          "http://h/r.wav" "").errs ∧
      GErr.deletingRight ∉
        (TranscribeURL ⟨"b", true, false, false, [], false⟩
          ⟨true, false, true, true, true, true, true, true, none, none⟩
          "http://h/r.wav" "").errs) ∧
    (true = true →
      (deriveBase "http://h/r.wav" "" ++ ".wav") ∈
        (TranscribeURL ⟨"b", true, false, false, [], false⟩
          ⟨true, false, true, true, true, true, true, true, none, none⟩
          "http://h/r.wav" "").state.closeCalled) ∧
    GErr.splitting ∈
      (TranscribeURL ⟨"b", true, false, false, [], false⟩
        ⟨true, false, true, true, true, true, true, true, none, none⟩
        "http://h/r.wav" "").errs :=
  claim4_split_failure_cleanup ⟨"b", true, false, false, [], false⟩
    ⟨true, false, true, true, true, true, true, true, none, none⟩
    "http://h/r.wav" "" rfl rfl

end Gcloudvoice

namespace Gcloudvoice

/-- Claim C7: when KeepIntermediateFiles is false the left and right
staged objects are deleted before the call returns (after a fully
successful call neither exists), deleting an absent object is not
reported as an error, and when KeepIntermediateFiles is true no delete is
issued and both staged objects still exist. -/
theorem claim7_intermediate_retention (c : Client) (o : Oracle) (url name : String)
    (hget : o.httpGetOk = true) :
    (c.KeepIntermediateFiles = false → o.splitOk = true → o.leftCloseOk = true →
      o.rightCloseOk = true → o.leftDeleteOk = true → o.rightDeleteOk = true →
      (deriveBase url name ++ ".left.wav") ∈
        (TranscribeURL c o url name).state.deletesIssued ∧
      (deriveBase url name ++ ".right.wav") ∈
        (TranscribeURL c o url name).state.deletesIssued ∧
      (deriveBase url name ++ ".left.wav") ∉
        (TranscribeURL c o url name).state.objects ∧
      (deriveBase url name ++ ".right.wav") ∉
        (TranscribeURL c o url name).state.objects) ∧
    (c.KeepIntermediateFiles = false → o.splitOk = false →
      GErr.deletingLeft ∉ (TranscribeURL c o url name).errs ∧
      GErr.deletingRight ∉ (TranscribeURL c o url name).errs) ∧
    (c.KeepIntermediateFiles = true →
      (TranscribeURL c o url name).state.deletesIssued = [] ∧
      (o.splitOk = true → o.leftCloseOk = true → o.rightCloseOk = true →
        (deriveBase url name ++ ".left.wav") ∈
          (TranscribeURL c o url name).state.objects ∧
        (deriveBase url name ++ ".right.wav") ∈
          (TranscribeURL c o url name).state.objects)) := by
  refine ⟨?_, ?_, ?_⟩
  · intro hk hsp hlc hrc hld hrd
    rw [TranscribeURL_run c o url name hget hsp hlc hrc]
    refine ⟨?_, ?_, ?_, ?_⟩
    · simp [runDeferred_fst_deletesIssued, hk, stagedState]
    · simp [runDeferred_fst_deletesIssued, hk, stagedState]
    · exact runDeferred_not_mem_left c o _ _ _ _ _ hk hld
        (origName_ne_leftName (deriveBase url name))
    · exact runDeferred_not_mem_right c o _ _ _ _ _ hk hrd
        (origName_ne_rightName (deriveBase url name))
  · intro hk hsp
    rw [TranscribeURL_split_fail c o url name hget hsp]
    have hnd := runDeferred_snd_no_delete c o (deriveBase url name ++ ".left.wav")
      (deriveBase url name ++ ".right.wav") (deriveBase url name ++ ".wav")
      initState [GErr.splitting] (by simp [initState]) (by simp [initState])
    constructor
    · rw [hnd]
      split_ifs <;> simp
    · rw [hnd]
      split_ifs <;> simp
  · intro hk
    constructor
    · cases hsp : o.splitOk with
      | false =>
        rw [TranscribeURL_split_fail c o url name hget hsp]
        simp [runDeferred_fst_deletesIssued, hk, initState]
      | true =>
        cases hlc : o.leftCloseOk with
        | false =>
          rw [TranscribeURL_left_close_fail c o url name hget hsp hlc]
          simp [runDeferred_fst_deletesIssued, hk, closeWriter_fst_deletesIssued,
            initState]
        | true =>
          cases hrc : o.rightCloseOk with
          | false =>
            rw [TranscribeURL_right_close_fail c o url name hget hsp hlc hrc]
            simp [runDeferred_fst_deletesIssued, hk, initState]
          | true =>
            rw [TranscribeURL_run c o url name hget hsp hlc hrc]
            simp [runDeferred_fst_deletesIssued, hk, stagedState]
    · intro hsp hlc hrc
      rw [TranscribeURL_run c o url name hget hsp hlc hrc]
      rw [runDeferred_objects_keep c o _ _ _ _ _ hk]
      constructor
      · simp [stagedState]
      · simp [stagedState]

/-- Claim C7 witness: the retention theorem applied to a concrete client
with intermediates not kept and a fully successful oracle. -/
theorem claim7_witness :
    (false = false → true = true → true = true →
      true = true → true = true → true = true →
      (deriveBase "http://h/r.wav" "" ++ ".left.wav") ∈
        (TranscribeURL ⟨"b", false, false, false, [], false⟩
          ⟨true, true, true, true, true, true, true, true,
            some [], some []⟩ "http://h/r.wav" "").state.deletesIssued ∧
      (deriveBase "http://h/r.wav" "" ++ ".right.wav") ∈
        (TranscribeURL ⟨"b", false, false, false, [], false⟩
          ⟨true, true, true, true, true, true, true, true,
            some [], some []⟩ "http://h/r.wav" "").state.deletesIssued ∧
      (deriveBase "http://h/r.wav" "" ++ ".left.wav") ∉
        (TranscribeURL ⟨"b", false, false, false, [], false⟩
          ⟨true, true, true, true, true, true, true, true,
            some [], some []⟩ "http://h/r.wav" "").state.objects ∧
      (deriveBase "http://h/r.wav" "" ++ ".right.wav") ∉
        (TranscribeURL ⟨"b", false, false, false, [], false⟩
          ⟨true, true, true, true, true, true, true, true,
            some [], some []⟩ "http://h/r.wav" "").state.objects) ∧
    (false = false → true = false →
      GErr.deletingLeft ∉
        (TranscribeURL ⟨"b", false, false, false, [], false⟩
          ⟨true, true, true, true, true, true, true, true,
            some [], some []⟩ "http://h/r.wav" "").errs ∧
      GErr.deletingRight ∉
        (TranscribeURL ⟨"b", false, false, false, [], false⟩
          ⟨true, true, true, true, true, true, true, true,
            some [], some []⟩ "http://h/r.wav" "").errs) ∧
    (false = true →
      (TranscribeURL ⟨"b", false, false, false, [], false⟩
        ⟨true, true, true, true, true, true, true, true,
          some [], some []⟩ "http://h/r.wav" "").state.deletesIssued = [] ∧
      (true = true → true = true → true = true →
        (deriveBase "http://h/r.wav" "" ++ ".left.wav") ∈
          (TranscribeURL ⟨"b", false, false, false, [], false⟩
            ⟨true, true, true, true, true, true, true, true,
              some [], some []⟩ "http://h/r.wav" "").state.objects ∧
        (deriveBase "http://h/r.wav" "" ++ ".right.wav") ∈
          (TranscribeURL ⟨"b", false, false, false, [], false⟩
            ⟨true, true, true, true, true, true, true, true,
              some [], some []⟩ "http://h/r.wav" "").state.objects)) :=
  claim7_intermediate_retention ⟨"b", false, false, false, [], false⟩
    ⟨true, true, true, true, true, true, true, true, some [], some []⟩
    "http://h/r.wav" "" rfl

end Gcloudvoice
